import Mathlib

/-!
Verification of the kern local-first persistence and engine-coordination
layer against its natural-language specification.

The development shallowly embeds the three components of the core:

* the OPFS durable storage layer (`OPFSStorage` in the store source),
  modelled as explicit directory contents (`StorageState`) with the
  snapshot / update file operations as pure state transformers;
* the engine client (`KernEngineAPI` in `src/workers/kern-engine.ts`),
  modelled as a `ClientState` carrying the readiness flag, the pending
  message queue, the per-response-kind handler registry, and a log of
  promise settlements;
* the document coordinator (the SolidJS document store), modelled as a
  `World` combining coordinator signals, an abstract engine state and a
  storage state, with the timer policies as folds over tick times.

Machine integers do not occur (all counters are unbounded in the source,
JavaScript numbers used only as timestamps and list indices), so `Nat`
is used throughout.  Opaque binary blobs are modelled by a type
parameter where possible and by `List Nat` elsewhere.
-/

namespace Kern

/-! ## Durable storage layer (`OPFSStorage`) -/

/-- Opaque binary blobs (`Uint8Array` in the source) for the storage
theorems; blob contents are never inspected by the storage layer. -/
abbrev Bytes := List Nat

/-- A directory of the private storage area: a set of named files.  File
names are unique within a directory; contents have the opaque type `β`. -/
abbrev Dir (β : Type) := List (String × β)

/-- Contents of the `kern-data` storage root: the `snapshots` directory
and the `updates` directory. -/
structure StorageState (β : Type) where
  snapshots : Dir β
  updates : Dir β
deriving DecidableEq

/-- Look a file up by name (`getFileHandle` without `create`). -/
def getFile {β : Type} (dir : Dir β) (name : String) : Option β :=
  (dir.find? (fun e => e.1 == name)).map (fun e => e.2)

/-- Create or replace the file `name` with contents `data`
(`getFileHandle` with `create: true`, then write and close: the write
replaces the previous contents entirely, file names stay unique). -/
def setFile {β : Type} (dir : Dir β) (name : String) (data : β) : Dir β :=
  (name, data) :: dir.filter (fun e => !(e.1 == name))

/-- JS `String.prototype.startsWith`: character-wise prefix test.
(Lean's builtin `String.startsWith` is byte-level and observationally the
same on UTF-8 strings; this char-list form is used so that ground
instances evaluate.) -/
def strStartsWith (s pre : String) : Bool := pre.data.isPrefixOf s.data

/-- Snapshot file name for a document id: `${id}.loro`. -/
def snapName (id : String) : String := id ++ ".loro"

/-- Delta file name for a document id and a `Date.now()` timestamp:
`${id}-${timestamp}.delta`. -/
def updName (id : String) (ts : Nat) : String :=
  id ++ "-" ++ toString ts ++ ".delta"

/-- `OPFSStorage.clearUpdates`: remove every file of the updates
directory whose name starts with `${id}-`. -/
def clearUpdates {β : Type} (st : StorageState β) (id : String) : StorageState β :=
  { st with updates := st.updates.filter (fun e => !(strStartsWith e.1 (id ++ "-"))) }

/-- Observable destructive/creative steps taken by `saveSnapshot`, in
program order. -/
inductive StoreEvent where
  | writeSnap (name : String)
  | deleteUpd (name : String)
deriving DecidableEq

/-- Failure point of a snapshot write.  `atOpen` fails before the file
handle is created (directory lookup / handle creation errors); `atWrite`
fails after `getFileHandle(create: true)` but before the writable stream
is closed.  An OPFS writable stream commits its data only on a
successful `close()`, so in both cases the previous contents of the
snapshot file are untouched; `atWrite` can leave behind a freshly
created empty file when no snapshot existed before. -/
inductive SaveFailure where
  | atOpen
  | atWrite
deriving DecidableEq

/-- Result of `OPFSStorage.saveSnapshot`: whether it completed, the
storage state afterwards, and the ordered log of destructive/creative
steps it performed. -/
structure SaveResult (β : Type) where
  ok : Bool
  state : StorageState β
  events : List StoreEvent

/-- The `deleteUpd` events `clearUpdates id` performs on state `st`, in
directory order. -/
def deleteEvents {β : Type} (st : StorageState β) (id : String) : List StoreEvent :=
  (st.updates.filter (fun e => strStartsWith e.1 (id ++ "-"))).map
    (fun e => StoreEvent.deleteUpd e.1)

/-- `OPFSStorage.saveSnapshot`: write (replace) the snapshot file
`${id}.loro`, then `clearUpdates id`.  The `outcome` argument selects
the success path (`none`) or a failure point of the write; `blank` is
the content of a freshly created file that was never written (an empty
`Uint8Array`), which a failure after handle creation can leave behind
when no snapshot existed before. -/
def saveSnapshot {β : Type} (st : StorageState β) (id : String) (data blank : β)
    (outcome : Option SaveFailure) : SaveResult β :=
  match outcome with
  | some SaveFailure.atOpen => { ok := false, state := st, events := [] }
  | some SaveFailure.atWrite =>
      { ok := false
        state :=
          if (getFile st.snapshots (snapName id)).isSome then st
          else { st with snapshots := setFile st.snapshots (snapName id) blank }
        events := [] }
  | none =>
      let st1 : StorageState β :=
        { st with snapshots := setFile st.snapshots (snapName id) data }
      { ok := true
        state := clearUpdates st1 id
        events := StoreEvent.writeSnap (snapName id) :: deleteEvents st1 id }

/-- `OPFSStorage.appendUpdates` (success path): create the delta file
`${id}-${timestamp}.delta` with `create: true` and write `delta` into
it — if a file of that name already exists its contents are replaced. -/
def appendUpdates {β : Type} (st : StorageState β) (id : String) (ts : Nat)
    (delta : β) : StorageState β :=
  { st with updates := setFile st.updates (updName id ts) delta }

/-- `OPFSStorage.loadDocument`: return the snapshot file contents for
`id`, or `none` when the file does not exist. -/
def loadDocument {β : Type} (st : StorageState β) (id : String) : Option β :=
  getFile st.snapshots (snapName id)

/-- The delta records currently stored for `id` (the files `clearUpdates
id` would remove). -/
def updatesFor {β : Type} (st : StorageState β) (id : String) : Dir β :=
  st.updates.filter (fun e => strStartsWith e.1 (id ++ "-"))

/-! ## Engine client (`KernEngineAPI`, `src/workers/kern-engine.ts`)

The client owns a worker handle, a readiness flag, a FIFO queue of
messages sent before readiness, and a map from response kind to the
list of registered handlers.  Every request method registers a one-shot
(`once`) handler for its success kind and a one-shot handler for
`error`, then `send`s its message; the promise it returned settles when
one of those handlers is invoked by `handleMessage`.

Handlers are modelled by the id of the promise they settle: each
request gets a fresh id, recorded in the success-kind list and in the
`error` list.  `once` wrappers are distinct closures, so removing a
wrapper (`off` uses `indexOf`/`splice`) removes exactly the invoked
entry, which positional erasure (`List.eraseIdx`) models even when two
entries carry the same promise id. -/

/-- The views exchanged with the engine (`DocumentView`/`LineView` of
the worker protocol). -/
structure LineView where
  id : String
  content : String
deriving DecidableEq

/-- Ordered lines plus a version counter. -/
structure DocumentView where
  lines : List LineView
  version : Nat
deriving DecidableEq

/-- A request message to the worker (`WorkerMessage`); only the kind
tag steers queueing and dispatch, the payload is summarised by the
promise id of the request that sent it. -/
structure Msg where
  kind : String
  payload : Nat
deriving DecidableEq

/-- Worker responses (`WorkerResponse`). -/
inductive WResp where
  | ready (health : String)
  | view (v : DocumentView)
  | edited (affectedLines : List Nat)
  | snapshot (data : Bytes)
  | loaded
  | health (m : String)
  | error (m : String)
deriving DecidableEq

/-- The `type` tag of a response. -/
def respKind : WResp → String
  | WResp.ready _ => "ready"
  | WResp.view _ => "view"
  | WResp.edited _ => "edited"
  | WResp.snapshot _ => "snapshot"
  | WResp.loaded => "loaded"
  | WResp.health _ => "health"
  | WResp.error _ => "error"

/-- The message carried by an error response. -/
def errMsg : WResp → Option String
  | WResp.error m => some m
  | _ => none

/-- The handler registry: response kind to registered handler entries
(promise ids), in registration order (a JS `Map` of arrays). -/
abbrev Handlers := List (String × List Nat)

/-- `Map.get(type) || []`. -/
def lookupH : Handlers → String → List Nat
  | [], _ => []
  | e :: t, k => if e.1 = k then e.2 else lookupH t k

/-- `Map.set(type, handlers)`: update the binding in place, or append a
new one. -/
def setH : Handlers → String → List Nat → Handlers
  | [], k, v => [(k, v)]
  | e :: t, k, v => if e.1 = k then (k, v) :: t else e :: setH t k v

/-- `KernEngineAPI.on`: push a handler onto the list for `k`. -/
def onH (h : Handlers) (k : String) (i : Nat) : Handlers :=
  setH h k (lookupH h k ++ [i])

/-- State of `KernEngineAPI`: worker liveness (`worker !== null`),
readiness, the pre-ready FIFO queue, the messages actually posted to
the worker (in order), the handler registry, the next fresh promise id,
the log of handler invocations (in order), and the log of promise
settlements — `(pid, none)` for a resolution, `(pid, some m)` for a
rejection with message `m`.  A promise settles at most once; later
resolve/reject calls are no-ops, which first-wins `settle` models. -/
structure ClientState where
  worker : Bool
  isReady : Bool
  pendingMessages : List Msg
  posted : List Msg
  handlers : Handlers
  nextId : Nat
  invokedLog : List Nat
  settled : List (Nat × Option String)
deriving DecidableEq

/-- Settle promise `pid` with outcome `o` unless it already settled. -/
def settle (s : List (Nat × Option String)) (pid : Nat) (o : Option String) :
    List (Nat × Option String) :=
  if (s.find? (fun e => e.1 == pid)).isSome then s else s ++ [(pid, o)]

/-- `KernEngineAPI.send`: queue the message while not ready (except
`init`), otherwise post it to the worker if one exists
(`this.worker?.postMessage`). -/
def clientSend (st : ClientState) (m : Msg) : ClientState :=
  if st.isReady = false ∧ m.kind ≠ "init" then
    { st with pendingMessages := st.pendingMessages ++ [m] }
  else if st.worker then { st with posted := st.posted ++ [m] }
  else st

/-- The effect of the `once('ready', …)` handler installed by `init`:
set the readiness flag, post every queued message in FIFO order
(`this.worker?.postMessage(msg)` per message), and clear the queue. -/
def observeReady (st : ClientState) : ClientState :=
  { st with
    isReady := true
    posted := if st.worker then st.posted ++ st.pendingMessages else st.posted
    pendingMessages := [] }

/-- A request method (`checkHealth`, `getView`, `applyEdit`, `setText`,
`exportSnapshot`, `loadFromBytes`): allocate a promise, register a
one-shot handler for the success-response kind `respK` and a one-shot
handler for `error`, then `send` the message of kind `msgK` (e.g.
`getView` registers for `view` and sends `get_view`).  Returns the new
state and the promise id. -/
def request (st : ClientState) (respK msgK : String) : ClientState × Nat :=
  let pid := st.nextId
  let st1 : ClientState :=
    { st with
      handlers := onH (onH st.handlers respK pid) "error" pid
      nextId := pid + 1 }
  (clientSend st1 { kind := msgK, payload := pid }, pid)

/-- The live `for (const handler of handlers)` loop of `handleMessage`
over the array that `once` wrappers splice themselves out of: at index
`i`, invoke the wrapper there (it first removes itself, shifting the
array left), then continue with index `i + 1` of the shortened array.
Returns the invocation order and the remaining entries. -/
def iterLive (a : List Nat) (i : Nat) (acc : List Nat) : List Nat × List Nat :=
  if h : i < a.length then
    iterLive (a.eraseIdx i) (i + 1) (acc ++ [a.get ⟨i, h⟩])
  else (acc, a)
termination_by a.length - i
decreasing_by
  simp only [List.length_eraseIdx, h, if_pos]
  omega

/-- `KernEngineAPI.handleMessage` for a response whose handlers are all
`once` wrappers registered by request methods: run the live loop over
the handlers registered for the response kind; each invoked wrapper
removes itself and settles its promise — resolving it, or rejecting it
with the error message when the response is an error. -/
def handleMessage (st : ClientState) (r : WResp) : ClientState :=
  let p := iterLive (lookupH st.handlers (respKind r)) 0 []
  { st with
    handlers := setH st.handlers (respKind r) p.2
    invokedLog := st.invokedLog ++ p.1
    settled := p.1.foldl (fun s pid => settle s pid (errMsg r)) st.settled }

/-- `KernEngineAPI.terminate`: `worker?.terminate(); worker = null;
isReady = false` — nothing else is touched. -/
def terminate (st : ClientState) : ClientState :=
  { st with worker := false, isReady := false }

/-- A call into the client API after teardown (request methods only;
`init` would construct a fresh worker and is excluded), carrying the
success-response kind and the message kind of the method. -/
inductive ApiCall where
  | req (respK msgK : String)

/-- Run a sequence of API calls. -/
def runCalls (st : ClientState) (cs : List ApiCall) : ClientState :=
  cs.foldl (fun s c => match c with | ApiCall.req r k => (request s r k).1) st

/-- Send a list of messages through `clientSend` in order. -/
def sendAll (st : ClientState) (ms : List Msg) : ClientState :=
  ms.foldl clientSend st

/-! ## The engine behind the worker

Modelled from the spec: the WASM engine itself (`src-wasm`) is not part
of the repository sources — only its worker wrapper and typed client
are.  The spec treats it as an opaque capability owning the
authoritative document state, whose view is refreshed after every
mutating call, with `export_snapshot`/`load_from_bytes` an exact
serialisation round trip of opaque blobs.  We therefore model the
engine state as the authoritative view and the exported blob as the
engine state it encodes. -/

/-- Modelled from the spec: the engine owns the authoritative document
state; its observable part is the current view. -/
structure EngineState where
  doc : DocumentView
deriving DecidableEq

/-- Modelled from the spec: `get_view` reports the authoritative view
without mutating the engine. -/
def engineGetView (e : EngineState) : DocumentView := e.doc

/-- Modelled from the spec: `export_snapshot` serialises the current
engine state into an opaque blob; blobs are modelled by the state they
encode. -/
def engineExport (e : EngineState) : EngineState := e

/-- Modelled from the spec: `load_from_bytes` restores exactly the
state a previous `export_snapshot` serialised. -/
def engineLoadFromBytes (_e : EngineState) (b : EngineState) : EngineState := b

/-- Modelled from the spec: `set_text` replaces the whole document body
with `content` (one line per `\n`-separated segment, fresh line ids)
and bumps the version. -/
def engineSetText (e : EngineState) (content : String) : EngineState :=
  { doc :=
      { lines := (content.splitOn "\n").enum.map
          (fun p => { id := toString p.1, content := p.2 })
        version := e.doc.version + 1 } }

/-! ## Document coordinator (the document store)

The coordinator owns the reactive signals `isInitialized`, `isLoading`,
`documentView`, `currentDocId`, `pendingUpdates` and
`lastSnapshotTime`, and drives the engine client and the storage
singleton.  Its mutating operations `await` the engine; the engine's
answers are supplied as oracle arguments, matching the spec's
message-passing model.  `snapWrites` instruments the world with the
number of completed snapshot writes (the `writeSnap` events), so that
the timer-cadence properties can count them. -/

/-- The coordinator's reactive signals (`inited` models the
`isInitialized` signal). -/
structure CoordState where
  inited : Bool
  loading : Bool
  docView : DocumentView
  currentDocId : String
  pendingUpdates : List EngineState
  lastSnapshotTime : Nat
deriving DecidableEq

/-- A coordinator world: signals, engine state and storage contents,
plus the count of completed snapshot writes. -/
structure World where
  co : CoordState
  eng : EngineState
  store : StorageState EngineState
  snapWrites : Nat
deriving DecidableEq

/-- `FLUSH_INTERVAL = 5000` (milliseconds). -/
def FLUSH_INTERVAL : Nat := 5000

/-- `SNAPSHOT_INTERVAL = 30000` (milliseconds). -/
def SNAPSHOT_INTERVAL : Nat := 30000

/-- One spec time unit in source milliseconds. -/
def timeUnit : Nat := 1000

/-- `saveDocument`: no-op unless the store is ready and storage is
available; otherwise export a snapshot from the engine, write it via
`OPFSStorage.saveSnapshot`, and on success record `now` as the last
snapshot time and clear the pending-update buffer.  A storage failure
is caught and logged: the partial storage state is kept, the signals
stay untouched. -/
def coordSaveDocument (w : World) (avail : Bool) (now : Nat)
    (outcome : Option SaveFailure) : World :=
  if w.co.inited ∧ avail then
    let r := saveSnapshot w.store w.co.currentDocId (engineExport w.eng) w.eng outcome
    if r.ok then
      { w with
        store := r.state
        snapWrites := w.snapWrites + 1
        co := { w.co with lastSnapshotTime := now, pendingUpdates := [] } }
    else { w with store := r.state }
  else w

/-- An `EditDelta` request (`line`, `col`, optional `insert`, optional
`delete`). -/
structure EditDelta where
  line : Nat
  col : Nat
  insert : Option String
  deleteCount : Option Nat
deriving DecidableEq

/-- Outcome of the engine round trip performed by the coordinator's
`applyEdit`: the `apply_edit` request is answered with an error, or it
succeeds (moving the engine to `eng2`) and the follow-up `get_view`
either errors or reports the refreshed view. -/
inductive EditCallOutcome where
  | editRejected (m : String)
  | viewRejected (eng2 : EngineState) (m : String)
  | success (eng2 : EngineState) (affectedLines : List Nat)

/-- The coordinator's `applyEdit`: no-op unless the store is ready;
otherwise forward the delta to the engine client and republish the
refreshed view; any rejection is caught and swallowed, leaving every
signal untouched. -/
def coordApplyEdit (w : World) (_delta : EditDelta) (o : EditCallOutcome) : World :=
  if w.co.inited then
    match o with
    | EditCallOutcome.editRejected _ => w
    | EditCallOutcome.viewRejected eng2 _ => { w with eng := eng2 }
    | EditCallOutcome.success eng2 _ =>
        { w with eng := eng2, co := { w.co with docView := engineGetView eng2 } }
  else w

/-- The coordinator's `loadDocument`: no-op unless the store is ready;
otherwise set the `loading` flag, save the current document
(best-effort), switch the current document id, then — only if storage
is available — load the new id's snapshot into the engine or seed the
engine with the fresh placeholder body; finally republish the engine's
view and clear the `loading` flag. -/
def coordLoadDocument (w : World) (avail : Bool) (now : Nat) (newId : String)
    (snapOutcome : Option SaveFailure) : World :=
  if w.co.inited then
    let w1 := coordSaveDocument { w with co := { w.co with loading := true } }
      avail now snapOutcome
    let w2 := { w1 with co := { w1.co with currentDocId := newId } }
    let w3 :=
      if avail then
        match loadDocument w2.store newId with
        | some data => { w2 with eng := engineLoadFromBytes w2.eng data }
        | none =>
            { w2 with
              eng := engineSetText w2.eng ("# " ++ newId ++ "\n\nStart typing...") }
      else w2
    { w3 with co := { w3.co with docView := engineGetView w3.eng, loading := false } }
  else w

/-- One firing of the snapshot timer at time `t`: if the store is ready
and the elapsed time since the last snapshot exceeds
`SNAPSHOT_INTERVAL`, call `saveDocument` (success path). -/
def snapshotTick (w : World) (avail : Bool) (t : Nat) : World :=
  if w.co.inited ∧ t - w.co.lastSnapshotTime > SNAPSHOT_INTERVAL then
    coordSaveDocument w avail t none
  else w

/-- One firing of the flush timer at time `t`: if there are buffered
pending delta blobs and storage is available, append each to the store
(the loop reads `Date.now()` per append; within one tick they share
`t`) and clear the buffer. -/
def flushTick (w : World) (avail : Bool) (t : Nat) : World :=
  if w.co.pendingUpdates.length > 0 ∧ avail then
    { w with
      store := w.co.pendingUpdates.foldl
        (fun s u => appendUpdates s w.co.currentDocId t u) w.store
      co := { w.co with pendingUpdates := [] } }
  else w

/-- The firing times of a `setInterval` timer with period `period`
contained in `[0, tEnd]`: `period, 2·period, …`. -/
def timerTicks (period tEnd : Nat) : List Nat :=
  (List.range (tEnd / period)).map (fun k => (k + 1) * period)

/-- Run the snapshot timer alone up to time `tEnd` (the flush timer
never writes snapshots, so snapshot-write counts are unaffected by
interleaving it). -/
def runSnapshotTimer (w : World) (avail : Bool) (tEnd : Nat) : World :=
  (timerTicks SNAPSHOT_INTERVAL tEnd).foldl (fun x t => snapshotTick x avail t) w

/-! ## Auxiliary definitions for the statements and proofs -/

/-- Value of a decimal digit character. -/
def digitVal (c : Char) : Nat := c.toNat - 48

/-- Value of a big-endian decimal digit string (left inverse of
`Nat.toDigits 10`, used to show decimal renderings of distinct
timestamps are distinct). -/
def parseD (l : List Char) : Nat := l.foldl (fun a c => 10 * a + digitVal c) 0

/-- Split a list into the elements at even positions and those at odd
positions.  This is the closed form of the live handler loop: invoked
wrappers sit at even positions of the handler array, survivors at odd
positions. -/
def altSplit : List Nat → List Nat × List Nat
  | [] => ([], [])
  | x :: xs => (x :: (altSplit xs).2, (altSplit xs).1)

/-- The empty document view. -/
def emptyDoc : DocumentView := { lines := [], version := 0 }

/-- An empty storage state over raw bytes, for concrete scenarios. -/
def storeB : StorageState Bytes := { snapshots := [], updates := [] }

/-- A ready coordinator world right after initialization: store ready,
default document, empty storage, last snapshot time 0. -/
def w0 : World :=
  { co :=
      { inited := true, loading := false, docView := emptyDoc
        currentDocId := "default", pendingUpdates := [], lastSnapshotTime := 0 }
    eng := { doc := emptyDoc }
    store := { snapshots := [], updates := [] }
    snapWrites := 0 }

/-- A freshly initialized, ready engine client with no outstanding
requests. -/
def freshClient : ClientState :=
  { worker := true, isReady := true, pendingMessages := [], posted := []
    handlers := [], nextId := 0, invokedLog := [], settled := [] }

/-- A client whose worker exists but has not signalled readiness yet. -/
def unreadyClient : ClientState := { freshClient with isReady := false }

/-- A client with two registered error handlers: a stale one (promise 5,
left behind by an already-completed request) and the handler of the
currently outstanding request (promise 7). -/
def clientTwoErr : ClientState := { freshClient with handlers := [("error", [5, 7])] }

/-- A storage state with one existing snapshot and one delta record for
document `doc`. -/
def storeB1 : StorageState Bytes :=
  { snapshots := [(snapName "doc", [9])], updates := [(updName "doc" 50, [3])] }

/-- A client that issued a `get_view` request (promise 0, still pending)
and was then torn down by `terminate`. -/
def termScenario1 : ClientState := terminate (request freshClient "view" "get_view").1

/-- The same client after a further `checkHealth` request issued after
the teardown. -/
def termScenario2 : ClientState := (request termScenario1 "health" "check_health").1

/-- A ready client with a single stale error handler (promise 5) left
by an already-completed request; the next fresh promise id is 6. -/
def clientOneErr : ClientState :=
  { freshClient with handlers := [("error", [5])], nextId := 6 }

/-- The engine client after one completed `getView` (promise 0): the
`view` response resolved the promise, and the request's `once('error')`
wrapper is now stale. -/
def staleClient : ClientState :=
  handleMessage (request freshClient "view" "get_view").1 (WResp.view emptyDoc)

/-- `staleClient` after an `applyEdit` request (promise 1) that the
engine answered with `error "bad range"`. -/
def staleApplyEdit : ClientState :=
  handleMessage (request staleClient "edited" "apply_edit").1 (WResp.error "bad range")

/-! ## General lemmas about the directory model -/

theorem getFile_setFile {β : Type} (dir : Dir β) (name : String) (data : β) :
    getFile (setFile dir name data) name = some data := by
  simp [getFile, setFile, List.find?]

theorem find?_filter_ne {β : Type} (dir : Dir β) (n m : String) (h : ¬ n = m) :
    (dir.filter (fun e => !(e.1 == m))).find? (fun e => e.1 == n)
      = dir.find? (fun e => e.1 == n) := by
  have hmn : ¬ m = n := fun e => h e.symm
  induction dir with
  | nil => rfl
  | cons x t ih =>
      by_cases hx : x.1 = m
      · have hxn : ¬ x.1 = n := by rw [hx]; exact hmn
        simp [List.filter_cons, List.find?_cons, hx, hxn, ih, hmn]
      · by_cases hxn : x.1 = n <;>
          simp [List.filter_cons, List.find?_cons, hx, hxn, ih, hmn, h]

theorem getFile_setFile_ne {β : Type} (dir : Dir β) (n m : String) (data : β)
    (h : ¬ n = m) :
    getFile (setFile dir m data) n = getFile dir n := by
  have hmn : ¬ m = n := fun e => h e.symm
  simp only [getFile, setFile, List.find?_cons]
  rw [find?_filter_ne dir n m h]
  rw [show (m == n) = false from beq_eq_false_iff_ne.mpr hmn]

theorem filter_not_filter {α : Type} (p : α → Bool) (l : List α) :
    (l.filter (fun a => ! p a)).filter p = [] := by
  induction l with
  | nil => rfl
  | cons x t ih => by_cases h : p x <;> simp [List.filter_cons, h, ih]

theorem setFile_count {β : Type} (dir : Dir β) (name : String) (data : β) :
    ((setFile dir name data).filter (fun e => e.1 == name)).length = 1 := by
  simp only [setFile, List.filter_cons]
  rw [filter_not_filter (fun e : String × β => e.1 == name) dir]
  simp

/-! ## Decimal renderings of distinct numbers are distinct

`appendUpdates` derives the delta file name from `Date.now()` via
`toString`; the uniqueness claims reduce to injectivity of the decimal
rendering, proved through the left inverse `parseD`. -/

theorem toDigitsCore_append (b : Nat) :
    ∀ (f n : Nat) (ds : List Char),
      Nat.toDigitsCore b f n ds = Nat.toDigitsCore b f n [] ++ ds := by
  intro f
  induction f with
  | zero => intro n ds; rfl
  | succ f ih =>
      intro n ds
      simp only [Nat.toDigitsCore]
      by_cases h : n / b = 0
      · simp [h]
      · simp only [if_neg h]
        rw [ih (n / b) (Nat.digitChar (n % b) :: ds), ih (n / b) [Nat.digitChar (n % b)]]
        simp

theorem toDigitsCore_fuel (n : Nat) : ∀ f g : Nat, n < f → n < g →
    Nat.toDigitsCore 10 f n [] = Nat.toDigitsCore 10 g n [] := by
  induction n using Nat.strong_induction_on with
  | _ n ih =>
      intro f g hf hg
      match f, g, hf, hg with
      | f + 1, g + 1, hf, hg =>
        simp only [Nat.toDigitsCore]
        by_cases h : n / 10 = 0
        · simp [h]
        · simp only [if_neg h]
          rw [toDigitsCore_append 10 f, toDigitsCore_append 10 g]
          have hlt : n / 10 < n := Nat.div_lt_self (by omega) (by omega)
          rw [ih (n / 10) hlt f g (by omega) (by omega)]

theorem digitVal_digitChar (d : Nat) (h : d < 10) :
    digitVal (Nat.digitChar d) = d := by
  interval_cases d <;> rfl

theorem parseD_concat (l : List Char) (c : Char) :
    parseD (l ++ [c]) = 10 * parseD l + digitVal c := by
  simp [parseD, List.foldl_append]

theorem parseD_toDigits (n : Nat) : parseD (Nat.toDigits 10 n) = n := by
  induction n using Nat.strong_induction_on with
  | _ n ih =>
      simp only [Nat.toDigits, Nat.toDigitsCore]
      by_cases h : n / 10 = 0
      · have hn : n < 10 := (Nat.div_eq_zero_iff (by omega)).1 h
        have hm : n % 10 = n := Nat.mod_eq_of_lt hn
        simp only [if_pos h]
        have : parseD [Nat.digitChar (n % 10)] = digitVal (Nat.digitChar (n % 10)) := by
          simp [parseD]
        rw [this, digitVal_digitChar (n % 10) (by omega), hm]
      · simp only [if_neg h]
        have hlt : n / 10 < n := Nat.div_lt_self (by omega) (by omega)
        rw [toDigitsCore_append]
        have heq : Nat.toDigitsCore 10 n (n / 10) [] = Nat.toDigits 10 (n / 10) := by
          simp only [Nat.toDigits]
          exact toDigitsCore_fuel (n / 10) n (n / 10 + 1) (by omega) (by omega)
        rw [heq, parseD_concat, ih (n / 10) hlt, digitVal_digitChar _ (by omega)]
        omega

theorem toDigits_inj {a b : Nat} (h : Nat.toDigits 10 a = Nat.toDigits 10 b) :
    a = b := by
  calc a = parseD (Nat.toDigits 10 a) := (parseD_toDigits a).symm
    _ = parseD (Nat.toDigits 10 b) := by rw [h]
    _ = b := parseD_toDigits b

theorem updName_inj (id : String) {t1 t2 : Nat}
    (h : updName id t1 = updName id t2) : t1 = t2 := by
  have hd := congrArg String.data h
  simp only [updName, String.data_append, List.append_assoc] at hd
  have h1 := List.append_cancel_left hd
  have h2 := List.append_cancel_left h1
  have h3 : (toString t1).data = (toString t2).data := List.append_cancel_right h2
  exact toDigits_inj h3

theorem updName_ne (id : String) {t1 t2 : Nat} (h : ¬ t1 = t2) :
    ¬ updName id t1 = updName id t2 :=
  fun he => h (updName_inj id he)

/-! ## The live handler loop invokes even positions and keeps odd ones -/

theorem get_append_length {α : Type} (pre suf : List α) (x : α)
    (h : pre.length < (pre ++ x :: suf).length) :
    (pre ++ x :: suf).get ⟨pre.length, h⟩ = x := by
  induction pre with
  | nil => rfl
  | cons a t ih => exact ih (by simp)

theorem eraseIdx_append_length {α : Type} (pre suf : List α) (x : α) :
    (pre ++ x :: suf).eraseIdx pre.length = pre ++ suf := by
  induction pre with
  | nil => rfl
  | cons a t ih => simp [List.eraseIdx, ih]

theorem iterLive_spec (fuel : Nat) : ∀ suf : List Nat, suf.length ≤ fuel →
    ∀ (pre acc : List Nat),
      iterLive (pre ++ suf) pre.length acc
        = (acc ++ (altSplit suf).1, pre ++ (altSplit suf).2) := by
  induction fuel with
  | zero =>
      intro suf hs pre acc
      match suf, hs with
      | [], _ =>
          rw [iterLive]
          simp [altSplit]
  | succ fuel ih =>
      intro suf hs pre acc
      match suf with
      | [] =>
          rw [iterLive]
          simp [altSplit]
      | [x] =>
          rw [iterLive]
          have hlen : pre.length < (pre ++ [x]).length := by simp
          rw [dif_pos hlen, get_append_length pre [] x hlen,
            eraseIdx_append_length pre [] x]
          rw [iterLive]
          have hlen2 : ¬ pre.length + 1 < (pre ++ ([] : List Nat)).length := by simp
          rw [dif_neg hlen2]
          simp [altSplit]
      | x :: y :: ys =>
          rw [iterLive]
          have hlen : pre.length < (pre ++ x :: y :: ys).length := by simp
          rw [dif_pos hlen, get_append_length pre (y :: ys) x hlen,
            eraseIdx_append_length pre (y :: ys) x]
          have hre : pre ++ y :: ys = (pre ++ [y]) ++ ys := by simp
          have hlen3 : pre.length + 1 = (pre ++ [y]).length := by simp
          rw [hre, hlen3, ih ys (by simp at hs; omega) (pre ++ [y]) (acc ++ [x])]
          simp [altSplit]

theorem iterLive_run (l : List Nat) :
    iterLive l 0 [] = ((altSplit l).1, (altSplit l).2) := by
  have h := iterLive_spec l.length l (Nat.le_refl _) [] []
  simpa using h

theorem altSplit_concat (l : List Nat) (c : Nat) :
    altSplit (l ++ [c])
      = if l.length % 2 = 0 then ((altSplit l).1 ++ [c], (altSplit l).2)
        else ((altSplit l).1, (altSplit l).2 ++ [c]) := by
  induction l with
  | nil => simp [altSplit]
  | cons x t ih =>
      have hstep : altSplit ((x :: t) ++ [c])
          = (x :: (altSplit (t ++ [c])).2, (altSplit (t ++ [c])).1) := rfl
      rw [hstep, ih]
      by_cases h : t.length % 2 = 0
      · have hq : ¬ (x :: t).length % 2 = 0 := by simp [List.length_cons]; omega
        rw [if_pos h, if_neg hq]
        simp [altSplit]
      · have hq : (x :: t).length % 2 = 0 := by simp [List.length_cons]; omega
        rw [if_neg h, if_pos hq]
        simp [altSplit]

theorem altSplit_mem (l : List Nat) :
    (∀ x ∈ (altSplit l).1, x ∈ l) ∧ (∀ x ∈ (altSplit l).2, x ∈ l) := by
  induction l with
  | nil => simp [altSplit]
  | cons a t ih =>
      constructor
      · intro x hx
        simp only [altSplit, List.mem_cons] at hx
        rcases hx with h | h
        · simp [h]
        · exact List.mem_cons_of_mem a (ih.2 x h)
      · intro x hx
        simp only [altSplit] at hx
        exact List.mem_cons_of_mem a (ih.1 x hx)

/-! ## Handler registry lemmas -/

theorem lookupH_setH (h : Handlers) (k : String) (v : List Nat) :
    lookupH (setH h k v) k = v := by
  induction h with
  | nil => simp [setH, lookupH]
  | cons e t ih => by_cases he : e.1 = k <;> simp [setH, lookupH, he, ih]

theorem lookupH_setH_ne (h : Handlers) (k j : String) (v : List Nat)
    (hne : ¬ j = k) :
    lookupH (setH h k v) j = lookupH h j := by
  have hkj : ¬ k = j := fun e => hne e.symm
  induction h with
  | nil => simp [setH, lookupH, hkj]
  | cons e t ih =>
      by_cases he : e.1 = k
      · simp [setH, lookupH, he, hkj]
      · simp [setH, lookupH, he, ih]

theorem lookupH_onH (h : Handlers) (k : String) (i : Nat) :
    lookupH (onH h k i) k = lookupH h k ++ [i] := by
  simp [onH, lookupH_setH]

theorem lookupH_onH_ne (h : Handlers) (k j : String) (i : Nat) (hne : ¬ j = k) :
    lookupH (onH h k i) j = lookupH h j := by
  simp [onH, lookupH_setH_ne h k j _ hne]

/-! ## Client queue and call-sequence invariants -/

theorem clientSend_queued (st : ClientState) (m : Msg)
    (h1 : st.isReady = false) (h2 : ¬ m.kind = "init") :
    clientSend st m = { st with pendingMessages := st.pendingMessages ++ [m] } := by
  simp [clientSend, h1, h2]

theorem sendAll_unready (ms : List Msg) : ∀ st : ClientState,
    st.isReady = false → (∀ m ∈ ms, ¬ m.kind = "init") →
    sendAll st ms = { st with pendingMessages := st.pendingMessages ++ ms } := by
  induction ms with
  | nil => intro st h1 _; simp [sendAll]
  | cons m t ih =>
      intro st h1 h2
      have hm : ¬ m.kind = "init" := h2 m (by simp)
      have step : sendAll st (m :: t) = sendAll (clientSend st m) t := rfl
      rw [step, clientSend_queued st m h1 hm,
        ih _ (by simp [h1]) (fun x hx => h2 x (by simp [hx]))]
      simp

theorem request_fields (st : ClientState) (r k : String)
    (h1 : st.isReady = false) (h2 : ¬ k = "init") :
    (request st r k).1.settled = st.settled
    ∧ (request st r k).1.posted = st.posted
    ∧ (request st r k).1.isReady = false := by
  have : (request st r k).1
      = { st with
            handlers := onH (onH st.handlers r st.nextId) "error" st.nextId
            nextId := st.nextId + 1
            pendingMessages := st.pendingMessages ++ [{ kind := k, payload := st.nextId }] } := by
    simp only [request]
    rw [clientSend_queued _ _ (by simp [h1]) (by simpa using h2)]
  rw [this]
  exact ⟨rfl, rfl, h1⟩

theorem updatesFor_clearUpdates {β : Type} (st : StorageState β) (id : String) :
    updatesFor (clearUpdates st id) id = [] := by
  simp only [updatesFor, clearUpdates]
  exact filter_not_filter (fun e => strStartsWith e.1 (id ++ "-")) st.updates

theorem clientSend_fields (st : ClientState) (m : Msg) :
    (clientSend st m).handlers = st.handlers
    ∧ (clientSend st m).nextId = st.nextId
    ∧ (clientSend st m).invokedLog = st.invokedLog
    ∧ (clientSend st m).settled = st.settled := by
  simp only [clientSend]
  split
  · exact ⟨rfl, rfl, rfl, rfl⟩
  · split
    · exact ⟨rfl, rfl, rfl, rfl⟩
    · exact ⟨rfl, rfl, rfl, rfl⟩

theorem handleMessage_eq (st : ClientState) (r : WResp) :
    handleMessage st r
      = { st with
          handlers := setH st.handlers (respKind r)
            (altSplit (lookupH st.handlers (respKind r))).2
          invokedLog := st.invokedLog ++ (altSplit (lookupH st.handlers (respKind r))).1
          settled := (altSplit (lookupH st.handlers (respKind r))).1.foldl
            (fun s pid => settle s pid (errMsg r)) st.settled } := by
  simp only [handleMessage, iterLive_run]

theorem find?_concat_ne (s : List (Nat × Option String)) (q pid : Nat)
    (o : Option String) (h : ¬ q = pid) :
    (s ++ [(q, o)]).find? (fun e => e.1 == pid) = s.find? (fun e => e.1 == pid) := by
  induction s with
  | nil => simp [List.find?, beq_eq_false_iff_ne.mpr h]
  | cons x t ih => by_cases hx : x.1 = pid <;> simp [List.find?_cons, hx, ih]

theorem settle_find_ne (s : List (Nat × Option String)) (q pid : Nat)
    (o : Option String) (h : ¬ q = pid) :
    (settle s q o).find? (fun e => e.1 == pid) = s.find? (fun e => e.1 == pid) := by
  simp only [settle]
  split
  · rfl
  · exact find?_concat_ne s q pid o h

theorem settle_fold_ne (l : List Nat) : ∀ (s : List (Nat × Option String))
    (pid : Nat) (o : Option String), (∀ x ∈ l, ¬ x = pid) →
    ((l.foldl (fun s q => settle s q o) s).find? (fun e => e.1 == pid))
      = s.find? (fun e => e.1 == pid) := by
  induction l with
  | nil => intro s pid o _; rfl
  | cons q t ih =>
      intro s pid o h
      have step : (q :: t).foldl (fun s q => settle s q o) s
          = t.foldl (fun s q => settle s q o) (settle s q o) := rfl
      rw [step, ih _ pid o (fun x hx => h x (by simp [hx])),
        settle_find_ne s q pid o (h q (by simp))]

theorem find?_concat_self (s : List (Nat × Option String)) (pid : Nat)
    (o : Option String) (h : s.find? (fun e => e.1 == pid) = none) :
    (s ++ [(pid, o)]).find? (fun e => e.1 == pid) = some (pid, o) := by
  induction s with
  | nil => simp [List.find?]
  | cons x t ih =>
      by_cases hx : x.1 = pid
      · simp [List.find?_cons, hx] at h
      · simp only [List.cons_append, List.find?_cons,
          beq_eq_false_iff_ne.mpr hx] at h ⊢
        exact ih h

theorem settle_find_self (s : List (Nat × Option String)) (pid : Nat)
    (o : Option String) (h : s.find? (fun e => e.1 == pid) = none) :
    (settle s pid o).find? (fun e => e.1 == pid) = some (pid, o) := by
  have hs : settle s pid o = s ++ [(pid, o)] := by simp [settle, h]
  rw [hs]
  exact find?_concat_self s pid o h

theorem runCalls_spec (cs : List ApiCall) : ∀ st : ClientState,
    st.isReady = false →
    (∀ c ∈ cs, match c with | ApiCall.req _ k => ¬ k = "init") →
    (runCalls st cs).settled = st.settled
    ∧ (runCalls st cs).posted = st.posted
    ∧ (runCalls st cs).isReady = false := by
  induction cs with
  | nil => intro st h1 _; exact ⟨rfl, rfl, h1⟩
  | cons c t ih =>
      intro st h1 h2
      match c with
      | ApiCall.req r k =>
          have hk : ¬ k = "init" := h2 (ApiCall.req r k) (by simp)
          have hf := request_fields st r k h1 hk
          have step : runCalls st (ApiCall.req r k :: t) = runCalls (request st r k).1 t := rfl
          rw [step]
          have ihr := ih (request st r k).1 hf.2.2 (fun x hx => h2 x (by simp [hx]))
          exact ⟨ihr.1.trans hf.1, ihr.2.1.trans hf.2.1, ihr.2.2⟩

/-! ## Claims about the durable store -/

/-- C1: every successful `saveSnapshot(id, bytes)` writes the snapshot
blob before deleting any delta record, and on return every delta record
previously stored for `id` has been removed (and the new snapshot is in
place); on a failure of the snapshot write, the old snapshot and the old
delta records for `id` are all left intact. -/
theorem saveSnapshot_write_then_delete (β : Type) (st : StorageState β)
    (id : String) (data blank : β) :
    ((saveSnapshot st id data blank none).ok = true
     ∧ (saveSnapshot st id data blank none).events.head?
         = some (StoreEvent.writeSnap (snapName id))
     ∧ (∀ e ∈ (saveSnapshot st id data blank none).events.tail,
         ∃ n, e = StoreEvent.deleteUpd n)
     ∧ updatesFor (saveSnapshot st id data blank none).state id = []
     ∧ loadDocument (saveSnapshot st id data blank none).state id = some data)
    ∧ (∀ f : SaveFailure,
        (saveSnapshot st id data blank (some f)).ok = false
        ∧ (saveSnapshot st id data blank (some f)).state.updates = st.updates
        ∧ ∀ b : β, loadDocument st id = some b →
            loadDocument (saveSnapshot st id data blank (some f)).state id = some b) := by
  constructor
  · refine ⟨rfl, rfl, ?_, ?_, ?_⟩
    · intro e he
      simp only [saveSnapshot, List.tail_cons, deleteEvents, List.mem_map] at he
      obtain ⟨a, _, rfl⟩ := he
      exact ⟨a.1, rfl⟩
    · exact updatesFor_clearUpdates _ id
    · show getFile (setFile st.snapshots (snapName id) data) (snapName id) = some data
      exact getFile_setFile st.snapshots (snapName id) data
  · intro f
    cases f with
    | atOpen => exact ⟨rfl, rfl, fun b hb => hb⟩
    | atWrite =>
        refine ⟨rfl, ?_, ?_⟩
        · by_cases hs : (getFile st.snapshots (snapName id)).isSome <;>
            simp [saveSnapshot, hs]
        · intro b hb
          have hs : (getFile st.snapshots (snapName id)).isSome = true := by
            simp only [loadDocument] at hb
            simp [hb]
          simp only [saveSnapshot, hs, if_pos]
          exact hb

/-- C1 witness: on a store holding a snapshot and a delta record for
`doc`, the success path clears the deltas and installs the new blob,
the membership fact holds for the one delete event, and the
failure-after-create path keeps the deltas and the old blob. -/
theorem saveSnapshot_write_then_delete_witness :
    ((saveSnapshot storeB1 "doc" [1] [] none).ok = true
     ∧ (∃ n, StoreEvent.deleteUpd (updName "doc" 50) = StoreEvent.deleteUpd n)
     ∧ updatesFor (saveSnapshot storeB1 "doc" [1] [] none).state "doc" = []
     ∧ loadDocument (saveSnapshot storeB1 "doc" [1] [] none).state "doc" = some [1])
    ∧ ((saveSnapshot storeB1 "doc" [1] [] (some SaveFailure.atWrite)).state.updates
         = storeB1.updates
       ∧ loadDocument
           (saveSnapshot storeB1 "doc" [1] [] (some SaveFailure.atWrite)).state "doc"
         = some [9]) := by
  have h := saveSnapshot_write_then_delete Bytes storeB1 "doc" [1] []
  exact ⟨⟨h.1.1,
          h.1.2.2.1 (StoreEvent.deleteUpd (updName "doc" 50)) (by decide),
          h.1.2.2.2.1, h.1.2.2.2.2⟩,
         ⟨(h.2 SaveFailure.atWrite).2.1,
          (h.2 SaveFailure.atWrite).2.2 [9] (by decide)⟩⟩

/-- C6 counterexample: two `appendUpdates` calls for the same id that
observe the same `Date.now()` value derive the same file name, so the
second call overwrites the first record — afterwards a single delta
record exists and it holds the second blob, refuting distinct,
strictly increasing names and the no-overwrite guarantee. -/
theorem appendUpdates_same_millisecond_overwrites :
    (appendUpdates (appendUpdates storeB "doc" 100 [1]) "doc" 100 [2]).updates
        = [(updName "doc" 100, [2])]
    ∧ getFile (appendUpdates (appendUpdates storeB "doc" 100 [1]) "doc" 100 [2]).updates
        (updName "doc" 100) = some [2] := by
  constructor <;> decide

/-- C6 (amended): two `appendUpdates` calls for the same id whose
`Date.now()` readings are strictly increasing store their records under
distinct names carrying those timestamps in call order, and the second
call does not overwrite the first record — both blobs are present
afterwards. -/
theorem appendUpdates_distinct_timestamps (β : Type) (st : StorageState β)
    (id : String) (ts1 ts2 : Nat) (d1 d2 : β) (h : ts1 < ts2) :
    ¬ updName id ts1 = updName id ts2
    ∧ getFile (appendUpdates (appendUpdates st id ts1 d1) id ts2 d2).updates
        (updName id ts1) = some d1
    ∧ getFile (appendUpdates (appendUpdates st id ts1 d1) id ts2 d2).updates
        (updName id ts2) = some d2 := by
  have hne : ¬ updName id ts1 = updName id ts2 := updName_ne id (by omega)
  refine ⟨hne, ?_, ?_⟩
  · show getFile (setFile (setFile st.updates (updName id ts1) d1) (updName id ts2) d2)
        (updName id ts1) = some d1
    rw [getFile_setFile_ne _ _ _ _ hne]
    exact getFile_setFile _ _ _
  · exact getFile_setFile _ _ _

/-- C6 witness: concrete instance at timestamps 100 < 200. -/
theorem appendUpdates_distinct_timestamps_witness :
    ¬ updName "doc" 100 = updName "doc" 200
    ∧ getFile (appendUpdates (appendUpdates storeB "doc" 100 [1]) "doc" 200 [2]).updates
        (updName "doc" 100) = some [1]
    ∧ getFile (appendUpdates (appendUpdates storeB "doc" 100 [1]) "doc" 200 [2]).updates
        (updName "doc" 200) = some [2] :=
  appendUpdates_distinct_timestamps Bytes storeB "doc" 100 200 [1] [2] (by decide)

/-- C7: saving a snapshot for `id` twice and then loading returns
exactly the second blob, and after each save exactly one snapshot file
exists for `id` (write is replace-semantics). -/
theorem snapshot_replace_semantics (β : Type) (st : StorageState β)
    (id : String) (b1 b2 : β) :
    loadDocument (saveSnapshot (saveSnapshot st id b1 b1 none).state id b2 b2 none).state id
        = some b2
    ∧ ((saveSnapshot st id b1 b1 none).state.snapshots.filter
        (fun e => e.1 == snapName id)).length = 1
    ∧ ((saveSnapshot (saveSnapshot st id b1 b1 none).state id b2 b2 none).state.snapshots.filter
        (fun e => e.1 == snapName id)).length = 1 := by
  refine ⟨?_, ?_, ?_⟩
  · show getFile (setFile (setFile st.snapshots (snapName id) b1) (snapName id) b2)
        (snapName id) = some b2
    exact getFile_setFile _ _ _
  · exact setFile_count st.snapshots (snapName id) b1
  · exact setFile_count _ (snapName id) b2

/-! ## Claims about the engine client -/

/-- C2: every request sent before readiness (other than `init`, which
bypasses the queue) is held in the FIFO queue, and the instant readiness
is observed all queued requests are posted to the context in the order
they were issued, after any previously queued ones, with none dropped
and the queue left empty. -/
theorem queued_requests_flushed_fifo (st : ClientState) (ms : List Msg)
    (h1 : st.isReady = false) (h2 : st.worker = true)
    (h3 : ∀ m ∈ ms, ¬ m.kind = "init") :
    (observeReady (sendAll st ms)).posted
        = st.posted ++ st.pendingMessages ++ ms
    ∧ (observeReady (sendAll st ms)).pendingMessages = [] := by
  rw [sendAll_unready ms st h1 h3]
  simp [observeReady, h2, List.append_assoc]

/-- C2 witness: two requests queued on an un-ready client are posted in
issue order when `ready` is observed. -/
theorem queued_requests_flushed_fifo_witness :
    (observeReady (sendAll unreadyClient
        [{ kind := "get_view", payload := 0 }, { kind := "apply_edit", payload := 1 }])).posted
        = unreadyClient.posted ++ unreadyClient.pendingMessages
          ++ [{ kind := "get_view", payload := 0 }, { kind := "apply_edit", payload := 1 }]
    ∧ (observeReady (sendAll unreadyClient
        [{ kind := "get_view", payload := 0 }, { kind := "apply_edit", payload := 1 }])).pendingMessages
        = [] :=
  queued_requests_flushed_fifo unreadyClient
    [{ kind := "get_view", payload := 0 }, { kind := "apply_edit", payload := 1 }]
    rfl rfl (by decide)

/-- C5 counterexample: `terminate` merely tears the worker down and
clears readiness.  The `get_view` request that was pending at that
moment is not settled at all — in particular it is not rejected with a
"client terminated" error — its handlers stay registered, and a
`checkHealth` request issued after the teardown is placed in the
pending-message queue, neither posted nor settled. -/
theorem terminate_does_not_fail_requests :
    termScenario1.settled = []
    ∧ termScenario1.handlers = [("view", [0]), ("error", [0])]
    ∧ termScenario2.settled = []
    ∧ termScenario2.pendingMessages = [{ kind := "check_health", payload := 1 }]
    ∧ termScenario2.posted = [{ kind := "get_view", payload := 0 }] := by
  refine ⟨?_, ?_, ?_, ?_, ?_⟩ <;> decide

/-- C5 (amended): `terminate` tears down the worker and clears the
readiness flag but settles nothing: requests pending at that moment
remain unresolved (their handlers stay registered and their promises
are never settled), and any request-method call issued afterwards is
queued in the pending-message list and is never delivered to a context
nor settled.  Calling `terminate` a second time has no further
effect. -/
theorem terminate_leaves_requests_pending (st : ClientState) (cs : List ApiCall)
    (h : ∀ c ∈ cs, match c with | ApiCall.req _ k => ¬ k = "init") :
    (terminate st).handlers = st.handlers
    ∧ (terminate st).settled = st.settled
    ∧ (terminate st).pendingMessages = st.pendingMessages
    ∧ terminate (terminate st) = terminate st
    ∧ (runCalls (terminate st) cs).settled = st.settled
    ∧ (runCalls (terminate st) cs).posted = st.posted := by
  have hr := runCalls_spec cs (terminate st) rfl h
  exact ⟨rfl, rfl, rfl, rfl, hr.1, hr.2.1⟩

/-- C5 witness: concrete instance with one pending request and one
later call. -/
theorem terminate_leaves_requests_pending_witness :
    (terminate termScenario1).handlers = termScenario1.handlers
    ∧ (terminate termScenario1).settled = termScenario1.settled
    ∧ (terminate termScenario1).pendingMessages = termScenario1.pendingMessages
    ∧ terminate (terminate termScenario1) = terminate termScenario1
    ∧ (runCalls (terminate termScenario1) [ApiCall.req "health" "check_health"]).settled
        = termScenario1.settled
    ∧ (runCalls (terminate termScenario1) [ApiCall.req "health" "check_health"]).posted
        = termScenario1.posted :=
  terminate_leaves_requests_pending termScenario1 [ApiCall.req "health" "check_health"]
    (by intro c hc; simp at hc; subst hc; decide)

/-- C10: every request method registers a one-shot error handler that
is removed only by an error response.  A request completed by its
success response leaves that error handler registered, so the error
list grows by exactly one per completed request while the success-kind
list is emptied again; and when an error response later arrives while
stale handlers precede the failing request's handler `cur`, the live
loop invokes the even-positioned entries: the stale handlers at even
positions fire, in order, before `cur` — and when the number of stale
handlers is odd, `cur` is skipped entirely and never invoked. -/
theorem stale_error_handlers_accumulate :
    (∀ (st : ClientState) (kind msgK : String) (r : WResp),
        respKind r = kind → ¬ kind = "error" → lookupH st.handlers kind = [] →
        lookupH (handleMessage (request st kind msgK).1 r).handlers "error"
            = lookupH st.handlers "error" ++ [st.nextId]
        ∧ lookupH (handleMessage (request st kind msgK).1 r).handlers kind = [])
    ∧ (∀ (st : ClientState) (m : String) (es : List Nat) (cur : Nat),
        lookupH st.handlers "error" = es ++ [cur] →
        (handleMessage st (WResp.error m)).invokedLog
            = st.invokedLog ++ (altSplit es).1
              ++ (if es.length % 2 = 0 then [cur] else [])
        ∧ ∀ x ∈ (altSplit es).1, x ∈ es) := by
  constructor
  · intro st kind msgK r hr hke hempty
    have hne : ¬ "error" = kind := fun e => hke e.symm
    have hreqh : (request st kind msgK).1.handlers
        = onH (onH st.handlers kind st.nextId) "error" st.nextId :=
      (clientSend_fields _ _).1
    have hpid : lookupH (request st kind msgK).1.handlers kind = [st.nextId] := by
      rw [hreqh, lookupH_onH_ne _ "error" kind _ hke, lookupH_onH, hempty]
      rfl
    have hh : (handleMessage (request st kind msgK).1 r).handlers
        = setH (request st kind msgK).1.handlers kind [] := by
      simp only [handleMessage, hr, hpid, iterLive_run]
      rfl
    rw [hh]
    constructor
    · rw [lookupH_setH_ne _ kind "error" _ hne, hreqh, lookupH_onH,
        lookupH_onH_ne _ kind "error" _ hne]
    · exact lookupH_setH _ kind []
  · intro st m es cur hes
    constructor
    · have hh : (handleMessage st (WResp.error m)).invokedLog
          = st.invokedLog ++ (altSplit (es ++ [cur])).1 := by
        simp only [handleMessage, respKind, hes, iterLive_run]
      rw [hh, altSplit_concat]
      by_cases hpar : es.length % 2 = 0
      · rw [if_pos hpar, if_pos hpar]
        simp
      · rw [if_neg hpar, if_neg hpar]
        simp
    · exact fun x hx => (altSplit_mem es).1 x hx

/-- C10 witness: a `get_view` request completed by its `view` response
grows the error list from `[]` to one stale entry; on a client with one
stale error handler (5) ahead of the failing request's handler (7), the
error response invokes only the stale handler — the failing request's
handler is skipped. -/
theorem stale_error_handlers_accumulate_witness :
    (lookupH (handleMessage (request freshClient "view" "get_view").1 (WResp.view emptyDoc)).handlers "error"
        = lookupH freshClient.handlers "error" ++ [freshClient.nextId]
     ∧ lookupH (handleMessage (request freshClient "view" "get_view").1 (WResp.view emptyDoc)).handlers "view"
        = [])
    ∧ ((handleMessage clientTwoErr (WResp.error "bad range")).invokedLog
        = clientTwoErr.invokedLog ++ (altSplit [5]).1
          ++ (if ([5] : List Nat).length % 2 = 0 then [7] else [])
      ∧ ∀ x ∈ (altSplit [5]).1, x ∈ ([5] : List Nat)) :=
  ⟨stale_error_handlers_accumulate.1 freshClient "view" "get_view" (WResp.view emptyDoc)
      rfl (by decide) rfl,
   stale_error_handlers_accumulate.2 clientTwoErr "bad range" [5] 7 rfl⟩

/-! ## Claims about the document coordinator -/

/-- C3 counterexample: with the snapshot interval of 30 time units and
the last snapshot taken at unit 0, the timer fires at unit 30 and finds
an elapsed time of exactly 30 units, which does not exceed the interval
(the comparison is strict), so by unit 31 the snapshot timer has
produced zero snapshot writes, not exactly one. -/
theorem no_snapshot_write_by_unit31 :
    (runSnapshotTimer w0 true (31 * timeUnit)).snapWrites = 0 := by
  rfl

/-- C3 (amended): with the snapshot interval of 30 time units and the
last snapshot at unit 0, the snapshot timer produces no snapshot write
by unit 31; its first (and, through unit 65, only) snapshot write
happens at the unit-60 firing, the first tick at which the elapsed time
strictly exceeds the interval. -/
theorem snapshot_cadence_amended :
    (runSnapshotTimer w0 true (31 * timeUnit)).snapWrites = 0
    ∧ (runSnapshotTimer w0 true (61 * timeUnit)).snapWrites = 1
    ∧ (runSnapshotTimer w0 true (65 * timeUnit)).snapWrites = 1 := by
  exact ⟨rfl, rfl, rfl⟩

/-- C4 (code bug): the coordinator's `applyEdit` never adds the change
to the pending-update buffer — no operation in the repository appends to
`pendingUpdates`, it is only ever reset to `[]` — so a later flush tick
finds the buffer empty, appends no delta record to the store, and
changes nothing. -/
theorem applyEdit_never_buffers (w : World) (delta : EditDelta)
    (o : EditCallOutcome) (avail : Bool) (t : Nat) :
    (coordApplyEdit w delta o).co.pendingUpdates = w.co.pendingUpdates
    ∧ flushTick { w with co := { w.co with pendingUpdates := [] } } avail t
        = { w with co := { w.co with pendingUpdates := [] } } := by
  constructor
  · simp only [coordApplyEdit]
    split
    · cases o <;> rfl
    · rfl
  · simp [flushTick]

/-- C8 counterexample: with one stale error handler present — the
reachable state left by a single completed `getView` — the engine
answers the `apply_edit` request (promise 1) with `error "bad range"`,
but the live dispatch loop invokes only the stale wrapper (promise 0,
already settled, so the rejection is a no-op) and skips this request's
error handler: promise 1 is never settled, so the `applyEdit` call does
not reject with that error's message. -/
theorem applyEdit_error_not_rejected :
    lookupH staleClient.handlers "error" = [0]
    ∧ staleClient.settled = [(0, none)]
    ∧ (request staleClient "edited" "apply_edit").2 = 1
    ∧ staleApplyEdit.settled = [(0, none)]
    ∧ staleApplyEdit.settled.find? (fun e => e.1 == 1) = none := by
  refine ⟨?_, ?_, ?_, ?_, ?_⟩ <;>
    simp only [staleApplyEdit, staleClient, handleMessage_eq] <;> decide

/-- C8 (amended): when the engine answers an `apply_edit` request with
an error response, the fate of the client's `applyEdit` promise is
decided by the stale `once('error')` handlers left registered by
previously completed requests.  With an even number of stale handlers
before the call — in particular none, the clean state of Scenario E —
the promise rejects with exactly that error's message; with an odd
number, the skipping dispatch never invokes this request's error
handler and the promise is never settled.  In either case the
coordinator's `applyEdit` swallows the failure (the catch logs a
rejection; a hanging promise never resumes the continuation) and the
published view after the call is identical to the view before. -/
theorem applyEdit_error_settlement (st : ClientState) (m : String)
    (es : List Nat)
    (hes : lookupH st.handlers "error" = es)
    (hfresh : ∀ i ∈ es, ¬ i = st.nextId)
    (hunset : st.settled.find? (fun e => e.1 == st.nextId) = none) :
    ((es.length % 2 = 0 →
        (handleMessage (request st "edited" "apply_edit").1 (WResp.error m)).settled.find?
            (fun e => e.1 == st.nextId) = some (st.nextId, some m))
     ∧ (¬ es.length % 2 = 0 →
        (handleMessage (request st "edited" "apply_edit").1 (WResp.error m)).settled.find?
            (fun e => e.1 == st.nextId) = none))
    ∧ ∀ (w : World) (delta : EditDelta),
        coordApplyEdit w delta (EditCallOutcome.editRejected m) = w := by
  have hreqh : (request st "edited" "apply_edit").1.handlers
      = onH (onH st.handlers "edited" st.nextId) "error" st.nextId :=
    (clientSend_fields _ _).1
  have hreqs : (request st "edited" "apply_edit").1.settled = st.settled :=
    (clientSend_fields _ _).2.2.2
  have herr : lookupH (request st "edited" "apply_edit").1.handlers "error"
      = es ++ [st.nextId] := by
    rw [hreqh, lookupH_onH, lookupH_onH_ne _ "edited" "error" _ (by decide), hes]
  have hsettled : (handleMessage (request st "edited" "apply_edit").1 (WResp.error m)).settled
      = (altSplit (es ++ [st.nextId])).1.foldl
          (fun s pid => settle s pid (some m)) st.settled := by
    rw [handleMessage_eq]
    simp only [respKind, errMsg, herr, hreqs]
  have hstale : ∀ x ∈ (altSplit es).1, ¬ x = st.nextId :=
    fun x hx => hfresh x ((altSplit_mem es).1 x hx)
  have hmid : ((altSplit es).1.foldl (fun s pid => settle s pid (some m)) st.settled).find?
      (fun e => e.1 == st.nextId) = none := by
    rw [settle_fold_ne (altSplit es).1 st.settled st.nextId (some m) hstale]
    exact hunset
  refine ⟨⟨?_, ?_⟩, ?_⟩
  · intro hpar
    rw [hsettled, altSplit_concat, if_pos hpar, List.foldl_append]
    simp only [List.foldl_cons, List.foldl_nil]
    exact settle_find_self _ st.nextId (some m) hmid
  · intro hpar
    rw [hsettled, altSplit_concat, if_neg hpar]
    exact hmid
  · intro w delta
    simp only [coordApplyEdit]
    split <;> rfl

/-- C8 witness: on a fresh client (no stale handlers, even case) the
`applyEdit` promise rejects with the engine's message; on a client with
one stale error handler (odd case) it is never settled; the coordinator
is unchanged by the swallowed rejection. -/
theorem applyEdit_error_settlement_witness :
    (handleMessage (request freshClient "edited" "apply_edit").1
        (WResp.error "bad range")).settled.find?
        (fun e => e.1 == freshClient.nextId)
      = some (freshClient.nextId, some "bad range")
    ∧ (handleMessage (request clientOneErr "edited" "apply_edit").1
        (WResp.error "bad range")).settled.find?
        (fun e => e.1 == clientOneErr.nextId)
      = none
    ∧ coordApplyEdit w0 { line := 0, col := 0, insert := some "x", deleteCount := none }
        (EditCallOutcome.editRejected "bad range") = w0 :=
  ⟨(applyEdit_error_settlement freshClient "bad range" [] rfl (by simp) rfl).1.1 (by decide),
   (applyEdit_error_settlement clientOneErr "bad range" [5] rfl (by decide) rfl).1.2 (by decide),
   (applyEdit_error_settlement freshClient "bad range" [] rfl (by simp) rfl).2 w0
     { line := 0, col := 0, insert := some "x", deleteCount := none }⟩

/-- C9: a `loadDocument(newId)` call while storage is unavailable
switches the current document id to `newId` but neither loads the
engine from a snapshot nor seeds it with the placeholder body: the
engine and the store are untouched and the view republished at the end
of the call is the engine's unchanged view of the previous document. -/
theorem loadDocument_storage_unavailable (w : World) (now : Nat)
    (newId : String) (o : Option SaveFailure) (h : w.co.inited = true) :
    (coordLoadDocument w false now newId o).eng = w.eng
    ∧ (coordLoadDocument w false now newId o).store = w.store
    ∧ (coordLoadDocument w false now newId o).snapWrites = w.snapWrites
    ∧ (coordLoadDocument w false now newId o).co.currentDocId = newId
    ∧ (coordLoadDocument w false now newId o).co.docView = engineGetView w.eng := by
  simp [coordLoadDocument, coordSaveDocument, h]

/-- C9 witness: concrete instance on the freshly initialized world. -/
theorem loadDocument_storage_unavailable_witness :
    (coordLoadDocument w0 false 5 "doc2" none).eng = w0.eng
    ∧ (coordLoadDocument w0 false 5 "doc2" none).store = w0.store
    ∧ (coordLoadDocument w0 false 5 "doc2" none).snapWrites = w0.snapWrites
    ∧ (coordLoadDocument w0 false 5 "doc2" none).co.currentDocId = "doc2"
    ∧ (coordLoadDocument w0 false 5 "doc2" none).co.docView = engineGetView w0.eng :=
  loadDocument_storage_unavailable w0 5 "doc2" none rfl

end Kern
